import Mathlib

/-!
Verification of the `DataProcessor` family from the PiKPO coursework repository
(`processor/dataprocessor.py`, present in two variants: the lab-3 tree and the
lab-4/5 tree).  The pipeline reads a delimited text file into an in-memory
table, cleans missing values (CSV variant), derives a `price_category` column
with `pandas.cut`, sorts by `selling_price` and stores the result.

Shallow embedding conventions:
* a `Dataset` is a header (list of column names) plus a list of rows, each row
  a list of cells (`pandas.DataFrame` restricted to what the code uses);
* calls into the external pandas library (`read_csv`, `read_table`) are
  represented by their outcome, an `Except PdError Dataset` value: `.error`
  is the library raising, `.ok` a successfully built frame — the repository
  code never inspects more of the library call than that;
* Python exception handling becomes explicit control flow on those
  `Except` values, so `read` is a total Lean function and "no exception
  propagates" is inherent in the model;
* machine floats only ever hold integral sale prices here, so cells carry
  `Int` values (and exact rationals `ℚ` for the mean helper).
-/

namespace PiKPO

/-- A cell of the in-memory table: `na` is the missing marker
(`numpy.nan`), `str` a textual cell (`Cell.str ""` is the empty-string cell
that the cleaning step turns into `na`), `int` a numeric cell, and `rat` an
exact rational (produced only by the mean helper). -/
inductive Cell where
  | na : Cell
  | str : String → Cell
  | int : Int → Cell
  | rat : ℚ → Cell
deriving DecidableEq

/-- In-memory table: ordered column names plus ordered rows
(`pandas.DataFrame` as the repository uses it). -/
structure Dataset where
  header : List String
  rows : List (List Cell)
deriving DecidableEq

/-- The pandas-library error that a `read_csv` / `read_table` /
attribute-access call can raise; the repository code only catches and prints
it, so its payload is irrelevant. -/
inductive PdError where
  | parserError : PdError
  | attributeError : PdError
  | valueError : PdError
deriving DecidableEq

/-! ## Cleaning step of `CsvDataProcessor.run`
Source (both variants):
```
col_namess = self._dataset.columns
for i in range(len(col_namess)):
    self._dataset[col_namess[i]].replace('', np.nan, inplace=True)
    self._dataset.dropna(subset=[col_namess[i]], inplace=True)
```
-/

/-- `replace('', np.nan)` applied to a single cell. -/
def emptyToNa (c : Cell) : Cell :=
  if c = Cell.str "" then Cell.na else c

/-- Apply `f` to the cell at index `j` of a row (no-op past the end). -/
def modifyCell (f : Cell → Cell) : Nat → List Cell → List Cell
  | _, [] => []
  | 0, c :: cs => f c :: cs
  | n + 1, c :: cs => c :: modifyCell f n cs

/-- `self._dataset[col].replace('', np.nan, inplace=True)` for the column at
index `j`. -/
def replaceEmptyInCol (j : Nat) (rows : List (List Cell)) : List (List Cell) :=
  rows.map (modifyCell emptyToNa j)

/-- `self._dataset.dropna(subset=[col])` for the column at index `j`: keep
exactly the rows whose cell in that column is not the missing marker. -/
def dropNaInCol (j : Nat) (rows : List (List Cell)) : List (List Cell) :=
  rows.filter (fun r => decide (r.getD j Cell.na ≠ Cell.na))

/-- The `for i in range(len(col_namess))` loop body, iterated over the column
indices `js`: replace empty strings by the missing marker in column `j`, then
drop the rows missing in column `j`. -/
def cleanCols : List Nat → List (List Cell) → List (List Cell)
  | [], rows => rows
  | j :: js, rows => cleanCols js (dropNaInCol j (replaceEmptyInCol j rows))

/-- The whole cleaning step of `CsvDataProcessor.run`: the loop above over
all column indices of the dataset. -/
def clean (d : Dataset) : Dataset :=
  ⟨d.header, cleanCols (List.range d.header.length) d.rows⟩

/-- A cell that the cleaning step treats as missing: the missing marker
itself, or the empty string (which `replace` turns into the marker). -/
def missingCell (c : Cell) : Bool :=
  c == Cell.na || c == Cell.str ""

/-- Row-wise survival predicate: no cell of the row, over the `n` columns of
the table, is missing. -/
def keepRow (n : Nat) (r : List Cell) : Bool :=
  (List.range n).all (fun j => !missingCell (r.getD j Cell.na))

/-- Spec-side cleaning (claim C7's words): a single row-wise pass that drops
each row having a missing value (empty string or marker) in any column. -/
def rowwiseClean (d : Dataset) : Dataset :=
  ⟨d.header, d.rows.filter (keepRow d.header.length)⟩

/-! ## `price_category` (`pandas.cut`)
Source (both variants):
```
self._dataset["price_category"] =
  pandas.cut(self._dataset["selling_price"], [0,500000,1500000,np.inf], labels=[1,2,3])
```
`pandas.cut` with `right=True` (its default) buckets a value into the
right-closed intervals `(0, 500000]`, `(500000, 1500000]`, `(1500000, ∞)`
labelled `1`, `2`, `3`, and yields `NaN` for values outside every bucket. -/

/-- The bucket `pandas.cut` assigns to a `selling_price` value with bin
edges `[0, 500000, 1500000, np.inf]` and labels `[1, 2, 3]`. -/
def priceCategory (v : Int) : Option Nat :=
  if 0 < v ∧ v ≤ 500000 then some 1
  else if 500000 < v ∧ v ≤ 1500000 then some 2
  else if 1500000 < v then some 3
  else none

/-- The cell stored in the new `price_category` column. -/
def catCell (v : Int) : Cell :=
  match priceCategory v with
  | some k => Cell.int (k : Int)
  | none => Cell.na

/-- Numeric value of a cell where the code needs one (the `selling_price`
column holds integral prices after cleaning). -/
def toIntCell : Cell → Int
  | Cell.int n => n
  | _ => 0

/-- Value of column `colname` in row `r` of a table with header `hdr`
(lookup by column name, as pandas column indexing does). -/
def keyOf (hdr : List String) (colname : String) (r : List Cell) : Int :=
  toIntCell (r.getD (hdr.findIdx (fun s => s == colname)) Cell.na)

/-- The assignment `self._dataset["price_category"] = pandas.cut(...)`:
append the `price_category` column computed from `selling_price`. -/
def addPriceCategory (d : Dataset) : Dataset :=
  ⟨d.header ++ ["price_category"],
   d.rows.map (fun r => r ++ [catCell (keyOf d.header "selling_price" r)])⟩

/-! ## `DataProcessor.sort_data_by_col`
Source (both variants): `return df.sort_values(by=[colname], ascending=asc)`.
`pandas.sort_values` is part of the external library runtime that the spec
excludes (spec §6) while its §4.1 contract for `sortByColumn` mandates a
stable ascending/descending comparison sort; the primitive is embedded here
as a stable insertion sort on the named column's value. -/

/-- Modelled from the spec: stable insertion of `a` into `l` — `a` goes in
front of the first element whose key is not smaller, so an element inserted
from an earlier original position precedes equal-keyed later ones. -/
def sInsert (kf : α → Int) (a : α) : List α → List α
  | [] => [a]
  | b :: bs => if kf a ≤ kf b then a :: b :: bs else b :: sInsert kf a bs

/-- Modelled from the spec: stable insertion sort by the key `kf`,
ascending. -/
def sSort (kf : α → Int) : List α → List α
  | [] => []
  | a :: as => sInsert kf a (sSort kf as)

/-- `df.sort_values(by=[colname], ascending=asc)`: rows reordered by the
named column's value (descending realised as ascending on the negated key,
which keeps ties in original order exactly like a stable descending sort). -/
def sort_data_by_col (df : Dataset) (colname : String) (asc : Bool) : Dataset :=
  ⟨df.header,
   if asc then sSort (keyOf df.header colname) df.rows
   else sSort (fun r => -(keyOf df.header colname r)) df.rows⟩

/-- `CsvDataProcessor.run` on the current dataset: clean, add the
`price_category` column, sort ascending by `selling_price`; the returned
dataset is what the method stores into `self.result`. -/
def csvRun (d : Dataset) : Dataset :=
  sort_data_by_col (addPriceCategory (clean d)) "selling_price" true

/-- `TxtDataProcessor.run`: sort ascending by `selling_price`, no cleaning
or categorisation. -/
def txtRun (d : Dataset) : Dataset :=
  sort_data_by_col d "selling_price" true

/-! ## `CsvDataProcessor.read`
Source (both variants):
```
try:
    for separator in self.separators:
        self._dataset = pandas.read_csv(self._datasource, sep=separator, ...)
        col_names = self._dataset.columns
        if len(col_names) > 1:
            print(...)
            return True
except Exception as e:
    print(e)
return False
```
The outcome of `pandas.read_csv` on the fixed source file under separator
`sep` is a value `parse sep : Except PdError Dataset`.  Note the `try` block
wraps the whole `for` loop.  Besides the returned boolean and the final
`_dataset` field, the model records which separators were actually passed to
`read_csv` (the trace), so that "detection stops there" is visible. -/

/-- `self.separators = [';', ',', '|']`. -/
def separators : List Char := [';', ',', '|']

/-- The delimiter-detection loop: walk the separators in order; a raised
parse (`Except.error`) aborts everything (the `except` arm of the `try`
that wraps the loop) leaving `_dataset` at its previous value; a parse with
more than one column returns `True` at once; otherwise `_dataset` holds the
just-parsed frame and the loop continues.  The third component lists the
separators actually given to `read_csv`. -/
def csvReadLoop (parse : Char → Except PdError Dataset) :
    List Char → Option Dataset → Bool × Option Dataset × List Char
  | [], st => (false, st, [])
  | sep :: rest, st =>
    match parse sep with
    | Except.error _ => (false, st, [sep])
    | Except.ok d =>
      if 1 < d.header.length then (true, some d, [sep])
      else
        let r := csvReadLoop parse rest (some d)
        (r.1, r.2.1, sep :: r.2.2)

/-- `CsvDataProcessor.read`: the loop above over `self.separators`, started
from the current `self._dataset` field.  Returns the boolean result, the
final `_dataset` field, and the trace of consulted separators. -/
def csvRead (parse : Char → Except PdError Dataset) (st : Option Dataset) :
    Bool × Option Dataset × List Char :=
  csvReadLoop parse separators st

/-- Spec-side detector (claims C1/C5's words): the parse under the first
delimiter, in the fixed priority order, that yields a table with more than
one column. -/
def detectGood (parse : Char → Except PdError Dataset) : List Char → Option Dataset
  | [] => none
  | sep :: rest =>
    match parse sep with
    | Except.error _ => detectGood parse rest
    | Except.ok d => if 1 < d.header.length then some d else detectGood parse rest

/-- Spec-side trace: the separators up to and including the first one whose
parse raises or yields more than one column — where detection stops. -/
def takeToGood (parse : Char → Except PdError Dataset) : List Char → List Char
  | [] => []
  | sep :: rest =>
    match parse sep with
    | Except.error _ => [sep]
    | Except.ok d => if 1 < d.header.length then [sep] else sep :: takeToGood parse rest

/-- The parse under `sep` completed without raising but produced at most one
column (the loop moves past such a separator). -/
def okSmall (parse : Char → Except PdError Dataset) (sep : Char) : Bool :=
  match parse sep with
  | Except.error _ => false
  | Except.ok d => decide (d.header.length ≤ 1)

/-! ## `TxtDataProcessor.read`
Source (lab-4/5 variant):
```
try:
    self._dataset = pandas.read_table(self._datasource, sep='\s+', engine='python')
    col_names = self._dataset.columns
    if len(col_names) < 2:
        return False
    return True
except Exception as e:
    print(str(e))
    return False
```
The lab-3 variant additionally begins the `try` block with
```
if self._dataset.isna():
    print("123")
else:
    print("3222")
```
`read_table` with `sep='\s+'` tokenises each line at runs of whitespace and
takes the first line as header; its behaviour on a concrete source string is
embedded below, and its outcome in general (which may be a raised error) is
an `Except PdError Dataset` argument as for the CSV variant. -/

/-- Split a character list at the characters satisfying `p`, discarding the
separators and empty fields, so consecutive separators count as one (runs of
whitespace as one column separator, blank lines skipped). -/
def splitRunsAux (p : Char → Bool) : List Char → List Char → List (List Char)
  | [], acc => if acc.isEmpty then [] else [acc.reverse]
  | c :: cs, acc =>
    if p c then
      if acc.isEmpty then splitRunsAux p cs []
      else acc.reverse :: splitRunsAux p cs []
    else splitRunsAux p cs (c :: acc)

/-- The non-empty maximal runs of non-separator characters. -/
def splitRuns (p : Char → Bool) (cs : List Char) : List (List Char) :=
  splitRunsAux p cs []

/-- `pandas.read_table(..., sep='\s+')` on a concrete source text: lines
split at newlines (blank lines skipped), each line tokenised at runs of
whitespace; the first line is the header, the remaining lines the rows. -/
def txtParseTable (s : String) : Dataset :=
  match splitRuns (fun c => c == '\n') s.toList with
  | [] => ⟨[], []⟩
  | h :: rest =>
    ⟨(splitRuns Char.isWhitespace h).map (fun t => String.mk t),
     rest.map (fun l => (splitRuns Char.isWhitespace l).map (fun t => Cell.str (String.mk t)))⟩

/-- `TxtDataProcessor.read` (lab-4/5 variant) given the current `_dataset`
field and the outcome `p` of the `read_table` call: a raise is caught and
becomes `False` with the field untouched; otherwise the field holds the
parsed frame and the result is `False` exactly when it has fewer than two
columns. -/
def txtRead (st : Option Dataset) (p : Except PdError Dataset) : Bool × Option Dataset :=
  match p with
  | Except.error _ => (false, st)
  | Except.ok d => if d.header.length < 2 then (false, some d) else (true, some d)

/-- Evaluation of the lab-3 guard `if self._dataset.isna():` on the current
`_dataset` field.  It never yields a boolean: on a fresh processor the field
is `None` and `None.isna()` raises `AttributeError`; on a populated field
`isna()` returns a whole DataFrame, whose use as an `if` condition raises
`ValueError` (truth value of a DataFrame is ambiguous). -/
def isnaCond : Option Dataset → Except PdError Bool
  | none => Except.error PdError.attributeError
  | some _ => Except.error PdError.valueError

/-- `TxtDataProcessor.read` (lab-3 variant): first the `isna` guard above —
its raise is caught by the surrounding `try` and returns `False` before
`read_table` is ever called; the (dead) rest of the body is the lab-4/5
behaviour. -/
def lab3TxtRead (st : Option Dataset) (p : Except PdError Dataset) : Bool × Option Dataset :=
  match isnaCond st with
  | Except.error _ => (false, st)
  | Except.ok _ =>
    match p with
    | Except.error _ => (false, st)
    | Except.ok d => if d.header.length < 2 then (false, some d) else (true, some d)

/-! ## `DataProcessor.get_mean_value_by_filter` (lab-4/5 variant only)
Source:
```
def get_mean_value_by_filter(self, df, filter_expr):
    result = df.query(filter_expr)
    return result.mean(axis=0, skipna=True).to_frame().T
```
A `query` filter expression evaluates to a boolean on each row; it is
embedded as a row predicate.  `mean(axis=0, skipna=True)` averages the
numeric values of every column, skipping cells with no numeric value, and
gives `NaN` for a column with none; `.to_frame().T` makes the means a
single-row table. -/

/-- `df.query(filter_expr)`: the rows on which the filter expression
evaluates to true, in original order. -/
def queryRows (d : Dataset) (p : List Cell → Bool) : Dataset :=
  ⟨d.header, d.rows.filter p⟩

/-- The numeric value a cell contributes to a column mean (`skipna=True`
skips the missing marker; textual cells carry no numeric value either). -/
def cellNum : Cell → Option ℚ
  | Cell.int n => some (n : ℚ)
  | Cell.rat q => some q
  | _ => none

/-- Running sum and count of the numeric values in column `j`
(the accumulator of `mean(axis=0, skipna=True)`). -/
def colMeanFold (j : Nat) : List (List Cell) → ℚ × Nat
  | [] => (0, 0)
  | r :: rs =>
    let sc := colMeanFold j rs
    match cellNum (r.getD j Cell.na) with
    | some q => (q + sc.1, sc.2 + 1)
    | none => sc

/-- The mean of column `j`: sum over count of the numeric values, `none`
(pandas `NaN`) when the column has no numeric value. -/
def colMean (j : Nat) (rows : List (List Cell)) : Option ℚ :=
  let sc := colMeanFold j rows
  if sc.2 = 0 then none else some (sc.1 / (sc.2 : ℚ))

/-- Cell holding a column mean (`NaN` for an empty mean). -/
def meanCell : Option ℚ → Cell
  | none => Cell.na
  | some q => Cell.rat q

/-- `get_mean_value_by_filter`: filter the rows by the expression, then
return the single-row table of column means. -/
def get_mean_value_by_filter (d : Dataset) (p : List Cell → Bool) : Dataset :=
  ⟨d.header,
   [(List.range d.header.length).map (fun j => meanCell (colMean j (queryRows d p).rows))]⟩

/-- The numeric values of column `j` over the given rows, in order. -/
def colVals (j : Nat) (rows : List (List Cell)) : List ℚ :=
  rows.filterMap (fun r => cellNum (r.getD j Cell.na))

/-- Spec-side arithmetic mean of a list of values (claim C9's words),
absent when there are no values. -/
def meanSpec (vs : List ℚ) : Option ℚ :=
  if vs.length = 0 then none else some (vs.sum / (vs.length : ℚ))

/-! ## Helper lemmas: the cleaning loop -/

theorem getD_modifyCell_emptyToNa (j : Nat) (r : List Cell) :
    (modifyCell emptyToNa j r).getD j Cell.na = emptyToNa (r.getD j Cell.na) := by
  induction r generalizing j with
  | nil => simp [modifyCell, emptyToNa]
  | cons c cs ih =>
    cases j with
    | zero => simp [modifyCell]
    | succ n => simpa [modifyCell] using ih n

theorem modifyCell_emptyToNa_eq_self (j : Nat) (r : List Cell)
    (h : missingCell (r.getD j Cell.na) = false) :
    modifyCell emptyToNa j r = r := by
  induction r generalizing j with
  | nil => simp [modifyCell]
  | cons c cs ih =>
    cases j with
    | zero =>
      simp only [List.getD_cons_zero, missingCell, Bool.or_eq_false_iff, beq_eq_false_iff_ne] at h
      simp [modifyCell, emptyToNa, h.2]
    | succ n =>
      simp only [List.getD_cons_succ] at h
      simp [modifyCell, ih n h]

theorem decide_emptyToNa_ne (c : Cell) :
    decide (emptyToNa c ≠ Cell.na) = !missingCell c := by
  cases c with
  | str s =>
    by_cases hs : s = ""
    · subst hs; simp [emptyToNa, missingCell]
    · simp [emptyToNa, missingCell, hs]
  | _ => simp [emptyToNa, missingCell]

theorem cleanStep_eq_filter (j : Nat) (rows : List (List Cell)) :
    dropNaInCol j (replaceEmptyInCol j rows) =
      rows.filter (fun r => !missingCell (r.getD j Cell.na)) := by
  induction rows with
  | nil => rfl
  | cons r rs ih =>
    unfold replaceEmptyInCol dropNaInCol at ih ⊢
    rw [List.map_cons, List.filter_cons, List.filter_cons]
    have hpred : decide ((modifyCell emptyToNa j r).getD j Cell.na ≠ Cell.na)
        = !missingCell (r.getD j Cell.na) := by
      rw [getD_modifyCell_emptyToNa, decide_emptyToNa_ne]
    rw [hpred, ih]
    by_cases hm : missingCell (r.getD j Cell.na) = true
    · rw [hm]
      simp
    · have hm' : missingCell (r.getD j Cell.na) = false := by
        simpa using hm
      rw [hm', modifyCell_emptyToNa_eq_self j r hm']

theorem cleanCols_eq_filter (js : List Nat) (rows : List (List Cell)) :
    cleanCols js rows =
      rows.filter (fun r => js.all (fun j => !missingCell (r.getD j Cell.na))) := by
  induction js generalizing rows with
  | nil => simp [cleanCols]
  | cons j js ih =>
    simp only [cleanCols, cleanStep_eq_filter, ih, List.filter_filter, List.all_cons]
    exact List.filter_congr (fun r _ => by rw [Bool.and_comm])

theorem clean_rows_eq_filter (d : Dataset) :
    (clean d).rows = d.rows.filter (keepRow d.header.length) := by
  simp only [clean, cleanCols_eq_filter, keepRow]
  rfl

/-! ## Helper lemmas: the stable sort -/

theorem mem_sInsert (kf : α → Int) (a x : α) (l : List α) :
    x ∈ sInsert kf a l ↔ x = a ∨ x ∈ l := by
  induction l with
  | nil => simp [sInsert]
  | cons b bs ih =>
    by_cases h : kf a ≤ kf b
    · simp only [sInsert, if_pos h, List.mem_cons]
    · simp only [sInsert, if_neg h, List.mem_cons, ih]
      tauto

theorem pairwise_sInsert (kf : α → Int) (a : α) (l : List α)
    (h : l.Pairwise (fun x y => kf x ≤ kf y)) :
    (sInsert kf a l).Pairwise (fun x y => kf x ≤ kf y) := by
  induction l with
  | nil => simp [sInsert]
  | cons b bs ih =>
    rw [List.pairwise_cons] at h
    by_cases hab : kf a ≤ kf b
    · simp only [sInsert, if_pos hab]
      refine List.Pairwise.cons ?_ (List.Pairwise.cons h.1 h.2)
      intro x hx
      rcases List.mem_cons.mp hx with rfl | hx
      · exact hab
      · exact le_trans hab (h.1 x hx)
    · simp only [sInsert, if_neg hab]
      refine List.Pairwise.cons ?_ (ih h.2)
      intro x hx
      rcases (mem_sInsert kf a x bs).mp hx with rfl | hx
      · exact le_of_not_le hab
      · exact h.1 x hx

theorem pairwise_sSort (kf : α → Int) (l : List α) :
    (sSort kf l).Pairwise (fun x y => kf x ≤ kf y) := by
  induction l with
  | nil => simp [sSort]
  | cons a as ih => exact pairwise_sInsert kf a _ ih

theorem chain'_sSort (kf : α → Int) (l : List α) :
    List.Chain' (fun x y => kf x ≤ kf y) (sSort kf l) := by
  haveI : IsTrans α (fun x y => kf x ≤ kf y) := ⟨fun a b c hab hbc => le_trans hab hbc⟩
  exact List.chain'_iff_pairwise.mpr (pairwise_sSort kf l)

theorem filter_sInsert (kf : α → Int) (v : Int) (a : α) (l : List α) :
    (sInsert kf a l).filter (fun x => decide (kf x = v)) =
      if kf a = v then a :: l.filter (fun x => decide (kf x = v))
      else l.filter (fun x => decide (kf x = v)) := by
  induction l with
  | nil =>
    by_cases h : kf a = v <;> simp [sInsert, h]
  | cons b bs ih =>
    by_cases hab : kf a ≤ kf b
    · simp only [sInsert, if_pos hab, List.filter_cons]
      by_cases ha : kf a = v <;> simp [ha]
    · simp only [sInsert, if_neg hab, List.filter_cons, ih]
      by_cases ha : kf a = v
      · have hb : ¬ kf b = v := by
          intro hbv
          exact hab (le_of_eq (ha.trans hbv.symm))
        simp [ha, hb]
      · by_cases hb : kf b = v <;> simp [ha, hb]

theorem filter_sSort (kf : α → Int) (v : Int) (l : List α) :
    (sSort kf l).filter (fun x => decide (kf x = v)) =
      l.filter (fun x => decide (kf x = v)) := by
  induction l with
  | nil => rfl
  | cons a as ih =>
    simp only [sSort, filter_sInsert, List.filter_cons, ih]
    by_cases ha : kf a = v <;> simp [ha]

/-! ## Helper lemmas: the delimiter-detection loop -/

theorem okSmall_ok (parse : Char → Except PdError Dataset) (s : Char)
    (h : okSmall parse s = true) :
    ∃ d, parse s = Except.ok d ∧ d.header.length ≤ 1 := by
  unfold okSmall at h
  cases hp : parse s with
  | error e => rw [hp] at h; simp at h
  | ok d =>
    rw [hp] at h
    simp only [decide_eq_true_eq] at h
    exact ⟨d, rfl, h⟩

theorem csvReadLoop_firstGood (parse : Char → Except PdError Dataset)
    (pre : List Char) (s : Char) (post : List Char) (st : Option Dataset) (d : Dataset)
    (hpre : ∀ p ∈ pre, okSmall parse p = true)
    (hs : parse s = Except.ok d) (hd : 1 < d.header.length) :
    csvReadLoop parse (pre ++ s :: post) st = (true, some d, pre ++ [s]) := by
  induction pre generalizing st with
  | nil => simp [csvReadLoop, hs, hd]
  | cons p ps ih =>
    obtain ⟨dp, hp, hlen⟩ := okSmall_ok parse p (hpre p (by simp))
    have hnot : ¬ 1 < dp.header.length := by omega
    rw [List.cons_append]
    simp only [csvReadLoop, hp, if_neg hnot]
    rw [ih (some dp) (fun q hq => hpre q (by simp [hq]))]
    simp

theorem detectGood_firstGood (parse : Char → Except PdError Dataset)
    (pre : List Char) (s : Char) (post : List Char) (d : Dataset)
    (hpre : ∀ p ∈ pre, okSmall parse p = true)
    (hs : parse s = Except.ok d) (hd : 1 < d.header.length) :
    detectGood parse (pre ++ s :: post) = some d := by
  induction pre with
  | nil => simp [detectGood, hs, hd]
  | cons p ps ih =>
    obtain ⟨dp, hp, hlen⟩ := okSmall_ok parse p (hpre p (by simp))
    have hnot : ¬ 1 < dp.header.length := by omega
    rw [List.cons_append]
    simp only [detectGood, hp, if_neg hnot]
    exact ih (fun q hq => hpre q (by simp [hq]))

theorem takeToGood_firstGood (parse : Char → Except PdError Dataset)
    (pre : List Char) (s : Char) (post : List Char) (d : Dataset)
    (hpre : ∀ p ∈ pre, okSmall parse p = true)
    (hs : parse s = Except.ok d) (hd : 1 < d.header.length) :
    takeToGood parse (pre ++ s :: post) = pre ++ [s] := by
  induction pre with
  | nil => simp [takeToGood, hs, hd]
  | cons p ps ih =>
    obtain ⟨dp, hp, hlen⟩ := okSmall_ok parse p (hpre p (by simp))
    have hnot : ¬ 1 < dp.header.length := by omega
    rw [List.cons_append]
    simp only [takeToGood, hp, if_neg hnot]
    rw [ih (fun q hq => hpre q (by simp [hq]))]
    simp

theorem csvReadLoop_error (parse : Char → Except PdError Dataset)
    (pre : List Char) (s : Char) (post : List Char) (st : Option Dataset) (e : PdError)
    (hpre : ∀ p ∈ pre, okSmall parse p = true)
    (hs : parse s = Except.error e) :
    (csvReadLoop parse (pre ++ s :: post) st).1 = false ∧
      (csvReadLoop parse (pre ++ s :: post) st).2.2 = pre ++ [s] := by
  induction pre generalizing st with
  | nil => simp [csvReadLoop, hs]
  | cons p ps ih =>
    obtain ⟨dp, hp, hlen⟩ := okSmall_ok parse p (hpre p (by simp))
    have hnot : ¬ 1 < dp.header.length := by omega
    rw [List.cons_append]
    simp only [csvReadLoop, hp, if_neg hnot]
    have h2 := ih (some dp) (fun q hq => hpre q (by simp [hq]))
    exact ⟨h2.1, by simp [h2.2]⟩

/-! ## Helper lemmas: the column means -/

theorem colMeanFold_eq (j : Nat) (rows : List (List Cell)) :
    colMeanFold j rows = ((colVals j rows).sum, (colVals j rows).length) := by
  induction rows with
  | nil => rfl
  | cons r rs ih =>
    simp only [colMeanFold, colVals, List.filterMap_cons] at *
    cases hc : cellNum (r.getD j Cell.na) with
    | none => simpa [hc] using ih
    | some q => simp [hc, ih]

theorem colMean_eq_meanSpec (j : Nat) (rows : List (List Cell)) :
    colMean j rows = meanSpec (colVals j rows) := by
  unfold colMean meanSpec
  rw [colMeanFold_eq]

/-! ## Concrete parse outcomes used in witnesses and counterexamples -/

/-- A two-column frame, the parse of `"a;b\n1;2\n"` under `','` say. -/
def twoColTable : Dataset := ⟨["a", "b"], [[Cell.int 1, Cell.int 2]]⟩

/-- A one-column frame (the whole line as a single unsplit column). -/
def oneColTable : Dataset := ⟨["a,b"], [[Cell.str "1,2"]]⟩

/-- Parse outcomes of a source file that every separator parses, where only
`','` splits it into more than one column. -/
def parseW : Char → Except PdError Dataset :=
  fun c => if c = ',' then Except.ok twoColTable else Except.ok oneColTable

/-- Parse outcomes of a source file on which `read_csv` raises under `';'`
(ragged rows for that separator) while `','` parses it into two columns. -/
def parseExc : Char → Except PdError Dataset :=
  fun c =>
    if c = ';' then Except.error PdError.parserError
    else Except.ok twoColTable

/-- Parse outcomes of a source file that every separator parses into a
single column. -/
def parseSmall : Char → Except PdError Dataset :=
  fun _ => Except.ok oneColTable

/-! ## Claims -/

/-- C1 counterexample: a tested delimiter (`','`) parses the source into
more than one column, yet `read` returns `False` and stores nothing — the
parse under the earlier delimiter `';'` raises, and the `try` wrapping the
loop aborts detection before `','` is ever tried.  So it is not true
unconditionally that some tested delimiter achieving more than one column
makes `read` return `True` with that first good parse stored. -/
theorem csvRead_first_good_cex :
    (',' ∈ separators ∧ parseExc ',' = Except.ok twoColTable ∧
      1 < twoColTable.header.length) ∧
    csvRead parseExc none = (false, none, [';']) :=
  ⟨⟨by decide, rfl, by decide⟩, by decide⟩

/-- C1 amended: for every source file whose `read_csv` outcomes under the
priority order `[';', ',', '|']` are such that each delimiter before `s`
parses without raising (into at most one column) and `s` parses into more
than one, `CsvDataProcessor.read` returns `True`, stores exactly the parse
under `s` — which is the spec-side first delimiter achieving more than one
column (`detectGood`) — and detection stops there: only the separators up
to `s` are consulted (`takeToGood`).  Without the no-raise proviso the
detection can abort early (amended C2), as the counterexample shows. -/
theorem csvRead_first_good (parse : Char → Except PdError Dataset)
    (st : Option Dataset) (pre : List Char) (s : Char) (post : List Char) (d : Dataset)
    (hsep : separators = pre ++ s :: post)
    (hpre : ∀ p ∈ pre, okSmall parse p = true)
    (hs : parse s = Except.ok d) (hd : 1 < d.header.length) :
    csvRead parse st = (true, some d, pre ++ [s]) ∧
      detectGood parse separators = some d ∧
      takeToGood parse separators = pre ++ [s] := by
  rw [csvRead, hsep]
  exact ⟨csvReadLoop_firstGood parse pre s post st d hpre hs hd,
         detectGood_firstGood parse pre s post d hpre hs hd,
         takeToGood_firstGood parse pre s post d hpre hs hd⟩

/-- C1 witness: on the source whose parses are `parseW`, only `','` yields
two columns; `read` returns `True` with that parse after consulting `';'`
and `','`. -/
theorem csvRead_first_good_witness :
    csvRead parseW none = (true, some twoColTable, [';', ',']) ∧
      detectGood parseW separators = some twoColTable ∧
      takeToGood parseW separators = [';', ','] :=
  csvRead_first_good parseW none [';'] ',' ['|'] twoColTable (by decide)
    (by decide) rfl (by decide)

/-- C2 counterexample: with the parse under `';'` raising and `','` parsing
into two columns, `read` returns `False` after consulting only `';'` — the
detection loop does not continue to the next delimiter even though a later
delimiter succeeds, so it is not the case that only failure across all
delimiters yields `False`. -/
theorem csvRead_exception_aborts_cex :
    csvRead parseExc none = (false, none, [';']) ∧
      parseExc ',' = Except.ok twoColTable ∧
      1 < twoColTable.header.length :=
  ⟨by decide, rfl, by decide⟩

/-- C2 amended: an exception raised while parsing with one delimiter is
caught (read returns normally, `False`) but the `try` block wraps the whole
loop, so detection aborts at the raising delimiter instead of continuing:
with every earlier delimiter parsed into at most one column, a raising
delimiter `s` makes `read` return `False` with only the separators up to
`s` consulted. -/
theorem csvRead_exception_caught_aborts (parse : Char → Except PdError Dataset)
    (st : Option Dataset) (pre : List Char) (s : Char) (post : List Char) (e : PdError)
    (hsep : separators = pre ++ s :: post)
    (hpre : ∀ p ∈ pre, okSmall parse p = true)
    (hs : parse s = Except.error e) :
    (csvRead parse st).1 = false ∧ (csvRead parse st).2.2 = pre ++ [s] := by
  rw [csvRead, hsep]
  exact csvReadLoop_error parse pre s post st e hpre hs

/-- C2 amended witness: the raising first delimiter of `parseExc` makes
`read` return `False` with only `';'` consulted. -/
theorem csvRead_exception_caught_aborts_witness :
    (csvRead parseExc none).1 = false ∧ (csvRead parseExc none).2.2 = [';'] :=
  csvRead_exception_caught_aborts parseExc none [] ';' [',', '|']
    PdError.parserError (by decide) (by decide) rfl

/-- C5 counterexample: on a source that every separator parses into one
column, `read` returns `False` but the `_dataset` field ends holding the
last attempted parse — it does not remain absent. -/
theorem csvRead_failure_dataset_cex :
    csvRead parseSmall none = (false, some oneColTable, [';', ',', '|']) ∧
      (some oneColTable ≠ (none : Option Dataset)) := by
  decide

/-- C5 amended: when every tested delimiter parses the source into at most
one column, `read` returns `False` after consulting all separators, and the
`_dataset` field is overwritten with the parse under the last separator
`'|'` rather than remaining absent. -/
theorem csvRead_failure_stores_last_parse (parse : Char → Except PdError Dataset)
    (st : Option Dataset)
    (h : ∀ p ∈ separators, okSmall parse p = true) :
    ∃ d, parse '|' = Except.ok d ∧ csvRead parse st = (false, some d, separators) := by
  obtain ⟨d1, h1, l1⟩ := okSmall_ok parse ';' (h ';' (by decide))
  obtain ⟨d2, h2, l2⟩ := okSmall_ok parse ',' (h ',' (by decide))
  obtain ⟨d3, h3, l3⟩ := okSmall_ok parse '|' (h '|' (by decide))
  have n1 : ¬ 1 < d1.header.length := by omega
  have n2 : ¬ 1 < d2.header.length := by omega
  have n3 : ¬ 1 < d3.header.length := by omega
  exact ⟨d3, h3, by simp [csvRead, separators, csvReadLoop, h1, h2, h3, n1, n2, n3]⟩

/-- C5 amended witness: on the all-one-column source `parseSmall`, read
returns `False` and the field holds the `'|'` parse. -/
theorem csvRead_failure_stores_last_parse_witness :
    ∃ d, parseSmall '|' = Except.ok d ∧
      csvRead parseSmall none = (false, some d, separators) :=
  csvRead_failure_stores_last_parse parseSmall none (by decide)

/-- C3: the `price_category` value that `CsvDataProcessor.run` assigns to a
cleaned `selling_price` value `v` is category 1 exactly when
`0 < v ≤ 500000`, category 2 exactly when `500000 < v ≤ 1500000`, category 3
exactly when `1500000 < v`, and no category when `v ≤ 0`; in particular
`500000 ↦ 1`, `500001 ↦ 2`, `1500000 ↦ 2`, `1500001 ↦ 3`, `0 ↦ none`. -/
theorem priceCategory_buckets (v : Int) :
    (priceCategory v = some 1 ↔ 0 < v ∧ v ≤ 500000) ∧
    (priceCategory v = some 2 ↔ 500000 < v ∧ v ≤ 1500000) ∧
    (priceCategory v = some 3 ↔ 1500000 < v) ∧
    (priceCategory v = none ↔ v ≤ 0) ∧
    priceCategory 500000 = some 1 ∧ priceCategory 500001 = some 2 ∧
    priceCategory 1500000 = some 2 ∧ priceCategory 1500001 = some 3 ∧
    priceCategory 0 = none := by
  refine ⟨?_, ?_, ?_, ?_, by decide, by decide, by decide, by decide, by decide⟩ <;>
    · unfold priceCategory
      split_ifs <;> simp <;> omega

/-- C4: the Result of `run` (CSV or TXT variant) is sorted: every two
adjacent rows are in non-decreasing `selling_price` order; and the sort
performed by `sort_data_by_col` is stable: for every key value, the rows
carrying it appear in the Result exactly in their pre-sort relative order
(CSV: the order in the cleaned, categorised dataset; TXT: the input
order). -/
theorem run_sorted_and_stable (dcsv dtxt : Dataset) :
    List.Chain'
      (fun a b => keyOf (csvRun dcsv).header "selling_price" a
        ≤ keyOf (csvRun dcsv).header "selling_price" b) (csvRun dcsv).rows ∧
    List.Chain'
      (fun a b => keyOf (txtRun dtxt).header "selling_price" a
        ≤ keyOf (txtRun dtxt).header "selling_price" b) (txtRun dtxt).rows ∧
    (∀ v : Int,
      (csvRun dcsv).rows.filter
          (fun r => decide (keyOf (csvRun dcsv).header "selling_price" r = v)) =
        (addPriceCategory (clean dcsv)).rows.filter
          (fun r => decide (keyOf (addPriceCategory (clean dcsv)).header "selling_price" r = v))) ∧
    (∀ v : Int,
      (txtRun dtxt).rows.filter
          (fun r => decide (keyOf (txtRun dtxt).header "selling_price" r = v)) =
        dtxt.rows.filter (fun r => decide (keyOf dtxt.header "selling_price" r = v))) := by
  refine ⟨?_, ?_, fun v => ?_, fun v => ?_⟩
  · exact chain'_sSort (keyOf (addPriceCategory (clean dcsv)).header "selling_price")
      (addPriceCategory (clean dcsv)).rows
  · exact chain'_sSort (keyOf dtxt.header "selling_price") dtxt.rows
  · exact filter_sSort (keyOf (addPriceCategory (clean dcsv)).header "selling_price") v
      (addPriceCategory (clean dcsv)).rows
  · exact filter_sSort (keyOf dtxt.header "selling_price") v dtxt.rows

/-- C6: `TxtDataProcessor.read` of the lab-4/5 variant behaves as the claim
states — `True` exactly on a parse with at least two columns, raises caught
and converted to `False`, `"a b\n1 2\n"` accepted and `"a\n1\n"` rejected —
but the lab-3 variant returns `False` even on the well-formed two-column
input `"a b\n1 2\n"`: its leading `self._dataset.isna()` guard raises before
`read_table` runs. -/
theorem txtRead_behaviour :
    (txtRead none (Except.ok (txtParseTable "a b\n1 2\n"))).1 = true ∧
    (txtParseTable "a b\n1 2\n").header = ["a", "b"] ∧
    (txtRead none (Except.ok (txtParseTable "a\n1\n"))).1 = false ∧
    (txtParseTable "a\n1\n").header.length = 1 ∧
    (∀ (st : Option Dataset) (e : PdError), (txtRead st (Except.error e)).1 = false) ∧
    (∀ (st : Option Dataset) (d : Dataset),
      ((txtRead st (Except.ok d)).1 = true ↔ 2 ≤ d.header.length)) ∧
    (lab3TxtRead none (Except.ok (txtParseTable "a b\n1 2\n"))).1 = false := by
  refine ⟨by decide, by decide, by decide, by decide, fun st e => rfl, fun st d => ?_, rfl⟩
  unfold txtRead
  by_cases h : d.header.length < 2
  · simp [h]
  · simp [h]
    omega

/-- C7: the column-by-column cleaning loop of `CsvDataProcessor.run` is
exactly the single row-wise pass dropping every row that has a missing value
(empty string or marker) in any column — same surviving rows, same relative
order, cell for cell. -/
theorem clean_eq_rowwiseClean (d : Dataset) : clean d = rowwiseClean d := by
  unfold clean rowwiseClean
  rw [cleanCols_eq_filter]
  rfl

/-- C8: the cleaning step is a no-op on an already-cleaned dataset: if no
row has a missing marker or empty-string cell in any column, cleaning drops
nothing and returns the dataset unchanged. -/
theorem clean_noop_on_cleaned (d : Dataset)
    (h : ∀ r ∈ d.rows, keepRow d.header.length r = true) :
    clean d = d := by
  have hr : d.rows.filter (keepRow d.header.length) = d.rows :=
    List.filter_eq_self.mpr h
  calc clean d = ⟨d.header, d.rows.filter (keepRow d.header.length)⟩ := by
        unfold clean
        rw [cleanCols_eq_filter]
        rfl
    _ = ⟨d.header, d.rows⟩ := by rw [hr]
    _ = d := rfl

/-- C8 witness: a concrete two-column dataset with no empty or missing cell
is untouched by a second cleaning. -/
theorem clean_noop_on_cleaned_witness :
    clean ⟨["selling_price", "year"], [[Cell.int 100, Cell.int 2014]]⟩ =
      ⟨["selling_price", "year"], [[Cell.int 100, Cell.int 2014]]⟩ :=
  clean_noop_on_cleaned ⟨["selling_price", "year"], [[Cell.int 100, Cell.int 2014]]⟩
    (by decide)

/-- Concrete dataset for the C9 witness. -/
def meanWitnessData : Dataset :=
  ⟨["selling_price", "year"],
   [[Cell.int 100, Cell.int 2014], [Cell.int 300, Cell.na]]⟩

/-- Concrete filter expression (as a row predicate) for the C9 witness. -/
def meanWitnessFilter : List Cell → Bool :=
  fun r => decide (toIntCell (r.getD 0 Cell.na) ≤ 1000)

/-- C9: `get_mean_value_by_filter` keeps exactly the rows on which the
filter expression is true and returns a single-row table whose entry for
every column `j` is the arithmetic mean of that column's numeric values over
the selected rows, missing values skipped (`none`, pandas `NaN`, when
nothing remains). -/
theorem get_mean_value_by_filter_spec (d : Dataset) (p : List Cell → Bool)
    (r : List Cell) (j : Nat) (hj : j < d.header.length) :
    (r ∈ (queryRows d p).rows ↔ r ∈ d.rows ∧ p r = true) ∧
    (get_mean_value_by_filter d p).rows.length = 1 ∧
    ((get_mean_value_by_filter d p).rows.getD 0 []).getD j Cell.na =
      meanCell (meanSpec (colVals j (d.rows.filter p))) := by
  refine ⟨by simp [queryRows, List.mem_filter], rfl, ?_⟩
  show ((List.range d.header.length).map
      (fun j => meanCell (colMean j (queryRows d p).rows))).getD j Cell.na = _
  rw [List.getD_eq_getElem?_getD, List.getElem?_map, List.getElem?_range hj]
  simp [colMean_eq_meanSpec, queryRows]

/-- C9 witness: on a concrete two-column dataset with an all-accepting
price filter, the returned table is one row whose first entry is the mean
of the selected `selling_price` values. -/
theorem get_mean_value_by_filter_spec_witness :
    ([Cell.int 100, Cell.int 2014] ∈ (queryRows meanWitnessData meanWitnessFilter).rows ↔
      [Cell.int 100, Cell.int 2014] ∈ meanWitnessData.rows ∧
        meanWitnessFilter [Cell.int 100, Cell.int 2014] = true) ∧
    (get_mean_value_by_filter meanWitnessData meanWitnessFilter).rows.length = 1 ∧
    ((get_mean_value_by_filter meanWitnessData meanWitnessFilter).rows.getD 0 []).getD 0 Cell.na =
      meanCell (meanSpec (colVals 0 (meanWitnessData.rows.filter meanWitnessFilter))) :=
  get_mean_value_by_filter_spec meanWitnessData meanWitnessFilter
    [Cell.int 100, Cell.int 2014] 0 (by decide)

/-- C10: the lab-3 variant of `TxtDataProcessor.read` returns `False` for
every parse outcome of the source: on a freshly constructed processor the
`_dataset` field is the absent sentinel, so its leading
`self._dataset.isna()` raises before the file is parsed and the handler
converts the exception into `False` (and the same happens from any field
state). -/
theorem lab3TxtRead_always_false :
    (∀ p : Except PdError Dataset, lab3TxtRead none p = (false, none)) ∧
    (∀ (st : Option Dataset) (p : Except PdError Dataset),
      (lab3TxtRead st p).1 = false) := by
  refine ⟨fun p => rfl, fun st p => ?_⟩
  cases st <;> rfl

end PiKPO
